import Mathlib

/-!
Verification of the Dua Talk dictation tool (`dua_talk.py`) against its
natural-language specification.  The Python source is shallowly embedded:
pure functions become Lean functions, the mutable application object becomes
explicit state passing over `AppState`, and the concurrent
producer/consumer audio capture becomes a small-step relation.
-/

namespace DuaTalk

/-- Physical keys as delivered by the keyboard listener: the twelve pynput
modifier variants, character keys (`KeyCode` with a `char`), and other
special keys (non-modifier `Key` values such as escape or arrows,
identified by an index). -/
inductive PKey where
  | shift | shift_l | shift_r
  | ctrl | ctrl_l | ctrl_r
  | cmd | cmd_l | cmd_r
  | alt | alt_l | alt_r
  | char (c : Char)
  | special (n : Nat)
deriving DecidableEq

/-- `DuaTalkApp.KEY_MAPPING`: modifier name to the list of key variants that
satisfy it; unknown names give `[]` (the Python `dict.get(mod, [])`). -/
def KEY_MAPPING (m : String) : List PKey :=
  if m = "shift" then [.shift, .shift_l, .shift_r]
  else if m = "ctrl" then [.ctrl, .ctrl_l, .ctrl_r]
  else if m = "cmd" then [.cmd, .cmd_l, .cmd_r]
  else if m = "alt" then [.alt, .alt_l, .alt_r]
  else []

/-- `DuaTalkApp.MODIFIER_NAMES`: reverse mapping from a key to its canonical
modifier name; `none` models `key not in MODIFIER_NAMES`. -/
def MODIFIER_NAMES (k : PKey) : Option String :=
  match k with
  | .shift | .shift_l | .shift_r => some "shift"
  | .ctrl | .ctrl_l | .ctrl_r => some "ctrl"
  | .cmd | .cmd_l | .cmd_r => some "cmd"
  | .alt | .alt_l | .alt_r => some "alt"
  | .char _ => none
  | .special _ => none

/-- A hotkey configuration record: `modifiers` list of canonical names and an
optional literal character key (the on-disk `hotkeys.<mode>` value). -/
structure HotkeyConfig where
  modifiers : List String
  key : Option Char
deriving DecidableEq

/-- `DuaTalkApp._is_hotkey_pressed`: every configured modifier must have some
variant in the pressed set, and the configured literal key (lower-cased by
the source via `key.lower()`) must itself be pressed. -/
def is_hotkey_pressed (cfg : HotkeyConfig) (pressed : Finset PKey) : Bool :=
  (cfg.modifiers.all fun m => (KEY_MAPPING m).any fun k => decide (k ∈ pressed)) &&
  (match cfg.key with
   | none => true
   | some c => decide (PKey.char c.toLower ∈ pressed))

/-- A raw keyboard event. -/
inductive KeyEvent where
  | press (k : PKey)
  | release (k : PKey)
deriving DecidableEq

/-- Effect of one event on the pressed-key set alone
(`pressed_keys.add` / `pressed_keys.discard`). -/
def applyEvent (s : Finset PKey) : KeyEvent → Finset PKey
  | .press k => insert k s
  | .release k => s.erase k

/-- Pressed set resulting from a whole event sequence. -/
def applyEvents (s : Finset PKey) (es : List KeyEvent) : Finset PKey :=
  es.foldl applyEvent s

/-- The specification's reading of the literal-key condition: the literal
key named in the binding, exactly as configured, is currently pressed. -/
def specLiteralPressed (cfg : HotkeyConfig) (pressed : Finset PKey) : Prop :=
  match cfg.key with
  | none => True
  | some c => PKey.char c ∈ pressed

/-- The specification's reading of the modifier condition: each named
modifier has at least one pressed key of its canonical class. -/
def specModifiersPressed (cfg : HotkeyConfig) (pressed : Finset PKey) : Prop :=
  ∀ m ∈ cfg.modifiers, ∃ k ∈ KEY_MAPPING m, k ∈ pressed

instance (cfg : HotkeyConfig) (p : Finset PKey) :
    Decidable (specLiteralPressed cfg p) := by
  unfold specLiteralPressed
  cases cfg.key <;> infer_instance

instance (cfg : HotkeyConfig) (p : Finset PKey) :
    Decidable (specModifiersPressed cfg p) := by
  unfold specModifiersPressed
  infer_instance

/-- The two recording modes (`active_mode`). -/
inductive Mode where
  | toggle | push_to_talk
deriving DecidableEq

/-- Menu-bar icon, standing for the session state indicator
(`ICON_IDLE` / `ICON_RECORDING` / `ICON_PROCESSING`). -/
inductive Icon where
  | idle | recordingIcon | processing
deriving DecidableEq

/-- User-visible notifications emitted by the embedded code paths. -/
inductive Note where
  | notReady | invalidHotkey | hotkeySet
deriving DecidableEq

/-- The mutable state of `DuaTalkApp` relevant to hotkey handling, together
with observable effect logs (`notes`, `committed`, counters of
`start_recording` / `stop_recording` invocations and of toggle-trigger
firings). `recorded_modifiers` is the Python set of canonical names;
`grace_timers` counts pending `threading.Timer(0.1, ...)` callbacks. -/
structure AppState where
  pressed : Finset PKey
  recording : Bool
  hotkey_active : Bool
  stt_ready : Bool
  active_mode : Mode
  toggle_hotkey : HotkeyConfig
  ptt_hotkey : HotkeyConfig
  recording_hotkey_for : Option Mode
  recorded_modifiers : Finset String
  recorded_key : Option Char
  grace_timers : Nat
  title : Icon
  notes : List Note
  committed : List (Mode × Finset String × Option Char)
  starts : Nat
  stops : Nat
  toggle_invocations : Nat
deriving DecidableEq

/-- `ConfigManager.get_hotkey` restricted to the two stored modes. -/
def get_hotkey (s : AppState) (m : Mode) : HotkeyConfig :=
  match m with
  | .toggle => s.toggle_hotkey
  | .push_to_talk => s.ptt_hotkey

/-- `ConfigManager.set_hotkey`: replaces the binding for a mode, logged in
`committed`.  The source stores `list(recorded_modifiers)`, whose order is
an unspecified artifact of Python set iteration; the embedding determinizes
it by sorting, which no downstream consumer can observe (the modifier list
is only ever evaluated as a conjunction). -/
def set_hotkey (s : AppState) (m : Mode) (mods : Finset String)
    (k : Option Char) : AppState :=
  let l := mods.sort (· ≤ ·)
  let s' :=
    match m with
    | .toggle => { s with toggle_hotkey := ⟨l, k⟩ }
    | .push_to_talk => { s with ptt_hotkey := ⟨l, k⟩ }
  { s' with committed := s'.committed ++ [(m, mods, k)] }

/-- `DuaTalkApp.start_recording`: spawns the capture thread, flips the
recording flag, shows the recording icon. -/
def start_recording (s : AppState) : AppState :=
  { s with recording := true, title := .recordingIcon, starts := s.starts + 1 }

/-- `DuaTalkApp.stop_recording`: signals and joins the capture thread, flips
the flag, shows the processing icon, spawns background processing. -/
def stop_recording (s : AppState) : AppState :=
  { s with recording := false, title := .processing, stops := s.stops + 1 }

/-- `DuaTalkApp.toggle_recording`: rejects with a "Not Ready" notification
while the Whisper model is unloaded, otherwise starts or stops. -/
def toggle_recording (s : AppState) : AppState :=
  if s.stt_ready = false then { s with notes := s.notes ++ [Note.notReady] }
  else if s.recording = false then start_recording s
  else stop_recording s

/-- `DuaTalkApp._start_hotkey_recording`: enters hotkey-capture mode for a
target binding slot. -/
def start_hotkey_recording (s : AppState) (m : Mode) : AppState :=
  { s with recording_hotkey_for := some m,
           recorded_modifiers := ∅, recorded_key := none }

/-- `DuaTalkApp._finish_hotkey_recording`: with no accumulated modifiers,
report an invalid hotkey and exit capture without committing; otherwise
commit the accumulated binding and exit capture. -/
def finish_hotkey_recording (s : AppState) : AppState :=
  if s.recorded_modifiers = ∅ then
    { s with notes := s.notes ++ [Note.invalidHotkey],
             recording_hotkey_for := none }
  else
    match s.recording_hotkey_for with
    | some m =>
        let s' := set_hotkey s m s.recorded_modifiers s.recorded_key
        { s' with notes := s'.notes ++ [Note.hotkeySet],
                  recording_hotkey_for := none }
    | none => s

/-- `DuaTalkApp.on_press`: track the key, then either feed hotkey capture or
evaluate the active binding; in toggle mode a match clears the pressed set
and invokes `toggle_recording`, in push-to-talk mode a match arms the chord
and starts recording when not already armed or recording. -/
def on_press (s : AppState) (k : PKey) : AppState :=
  let s := { s with pressed := insert k s.pressed }
  match s.recording_hotkey_for with
  | some _ =>
      match MODIFIER_NAMES k with
      | some m => { s with recorded_modifiers := insert m s.recorded_modifiers }
      | none =>
          match k with
          | .char c => finish_hotkey_recording { s with recorded_key := some c }
          | _ => s
  | none =>
      let cfg := get_hotkey s s.active_mode
      if is_hotkey_pressed cfg s.pressed then
        match s.active_mode with
        | .toggle =>
            toggle_recording
              { s with pressed := ∅,
                       toggle_invocations := s.toggle_invocations + 1 }
        | .push_to_talk =>
            if s.hotkey_active = false ∧ s.recording = false then
              start_recording { s with hotkey_active := true }
            else s
      else s

/-- `DuaTalkApp.on_release`: untrack the key; during capture a modifier
release with accumulated modifiers schedules the grace timer; in armed
push-to-talk mode, release of a configured modifier disarms and stops. -/
def on_release (s : AppState) (k : PKey) : AppState :=
  let s := { s with pressed := s.pressed.erase k }
  match s.recording_hotkey_for with
  | some _ =>
      match MODIFIER_NAMES k with
      | some _ =>
          if s.recorded_modifiers ≠ ∅ then
            { s with grace_timers := s.grace_timers + 1 }
          else s
      | none => s
  | none =>
      if s.active_mode = Mode.push_to_talk ∧ s.hotkey_active = true then
        match MODIFIER_NAMES k with
        | some m =>
            if m ∈ (get_hotkey s Mode.push_to_talk).modifiers then
              let s := { s with hotkey_active := false }
              if s.recording = true then stop_recording s else s
            else s
        | none => s
      else s

/-- `DuaTalkApp._check_hotkey_recording_complete`: body of the grace timer;
finalizes a modifiers-only binding if capture is still active, modifiers
were accumulated, and no literal key arrived. -/
def check_hotkey_recording_complete (s : AppState) : AppState :=
  if s.recording_hotkey_for ≠ none ∧ s.recorded_modifiers ≠ ∅ ∧
      s.recorded_key = none then
    finish_hotkey_recording s
  else s

/-- Events the app reacts to: key presses, key releases, and a scheduled
grace timer firing. -/
inductive AppEvent where
  | press (k : PKey)
  | release (k : PKey)
  | grace
deriving DecidableEq

/-- One dispatch step of the app. A `grace` event is only effective when a
timer was actually scheduled. -/
def app_step (s : AppState) : AppEvent → AppState
  | .press k => on_press s k
  | .release k => on_release s k
  | .grace =>
      if s.grace_timers > 0 then
        check_hotkey_recording_complete { s with grace_timers := s.grace_timers - 1 }
      else s

/-- Run a sequence of events in arrival order. -/
def app_run (s : AppState) (es : List AppEvent) : AppState :=
  es.foldl app_step s

/-- A convenient base state: idle, engine loaded, default bindings from
`DEFAULT_CONFIG`, toggle mode. -/
def initApp : AppState :=
  { pressed := ∅, recording := false, hotkey_active := false, stt_ready := true,
    active_mode := .toggle,
    toggle_hotkey := ⟨["shift", "ctrl"], none⟩,
    ptt_hotkey := ⟨["cmd", "shift"], none⟩,
    recording_hotkey_for := none, recorded_modifiers := ∅, recorded_key := none,
    grace_timers := 0, title := .idle, notes := [], committed := [],
    starts := 0, stops := 0, toggle_invocations := 0 }

/-! ### Audio capture: producer / consumer small-step model

`record_audio` runs on a spawned thread; audio frames are appended to
`data_queue` while its input stream is open, and the stream is closed (no
further appends possible) exactly when the thread's `with` block exits,
which it may only do after `stop_event` is set.  `stop_recording` sets
`stop_event`, then `join`s the thread, and only afterwards spawns the
processing task that reads `list(data_queue.queue)` (a non-destructive
snapshot).  The state below records the producer's liveness, the frames the
hardware has yet to deliver, the queue contents, the stop flag, and the
consumer's phase. -/

/-- Consumer phase: before `stop_recording`, after setting the stop event
(waiting in `join`), or after the join returned and the queue was read. -/
inductive ConsPhase where
  | running
  | stopping
  | joined (result : List Nat)
deriving DecidableEq

/-- Combined state of the capture producer, the frame queue and the
stopping consumer.  Frames are identified by natural numbers. -/
structure RecSys where
  prodAlive : Bool
  pending : List Nat
  queue : List Nat
  stopFlag : Bool
  cons : ConsPhase
deriving DecidableEq

/-- Interleaved steps of the capture system.
`put`: the open stream's callback enqueues the next hardware frame.
`exitLoop`: the producer observes the stop flag, leaves its polling loop and
closes the stream (thread terminates).
`setStop`: `stop_recording` sets `stop_event`.
`joinRead`: `join` returns — enabled only once the producer thread has
terminated — and the buffered frames are read. -/
inductive RecStep : RecSys → RecSys → Prop
  | put {s : RecSys} {f : Nat} {rest : List Nat} :
      s.prodAlive = true → s.pending = f :: rest →
      RecStep s { s with pending := rest, queue := s.queue ++ [f] }
  | exitLoop {s : RecSys} :
      s.prodAlive = true → s.stopFlag = true →
      RecStep s { s with prodAlive := false }
  | setStop {s : RecSys} :
      s.cons = ConsPhase.running →
      RecStep s { s with stopFlag := true, cons := ConsPhase.stopping }
  | joinRead {s : RecSys} :
      s.cons = ConsPhase.stopping → s.prodAlive = false →
      RecStep s { s with cons := ConsPhase.joined s.queue }

/-- Reachability under `RecStep`. -/
inductive RecReach (init : RecSys) : RecSys → Prop
  | refl : RecReach init init
  | step {s t : RecSys} : RecReach init s → RecStep s t → RecReach init t

/-- Initial capture state: producer just spawned, stream open, empty queue,
`fs` the frames the hardware will deliver in order. -/
def recInit (fs : List Nat) : RecSys :=
  { prodAlive := true, pending := fs, queue := [], stopFlag := false,
    cons := ConsPhase.running }

/-! ### Transcription, cleanup, paste, history, config -/

/-- Python's `str.strip()`: drop whitespace from both ends. -/
def py_strip (s : String) : String :=
  ⟨(((s.data.dropWhile Char.isWhitespace).reverse.dropWhile
      Char.isWhitespace).reverse)⟩

/-- The fixed cleanup instruction sent to the LLM, with the transcript
appended (`cleanup_with_llm`'s prompt). -/
def cleanup_prompt (text : String) : String :=
  "Clean up this dictation. Remove filler words (um, uh, like, you know), " ++
  "fix punctuation and capitalization. Output ONLY the cleaned text, " ++
  "nothing else:\n\n" ++ text

/-- `DuaTalkApp.cleanup_with_llm`.  The external `ollama.generate` call is an
oracle `llm`; `none` models any raised exception (import failure, timeout,
malformed response), in which case the original text is returned. -/
def cleanup_with_llm (llm : String → Option String) (text : String) : String :=
  match llm (cleanup_prompt text) with
  | some resp => py_strip resp
  | none => text

/-- Notifications emitted by `process_audio`. -/
inductive PNote where
  | noAudio | noSpeech | pasted
deriving DecidableEq

/-- Observable outcome of one `process_audio` run: notifications, the text
handed to `_paste_text` (if any), the text added to history (if any), and
the final menu-bar icon. -/
structure ProcessOut where
  pnotes : List PNote
  pastedText : Option String
  historyAdded : Option String
  finalTitle : Icon
deriving DecidableEq

/-- `DuaTalkApp.process_audio`: concatenate the drained frames (here lists
of int16 samples); with no samples report "no audio recorded"; transcribe
and strip (`transcribe`); with an empty transcript report "no speech
detected" and paste nothing; otherwise optionally clean up, then
`output_text` (history + paste + notification).  The icon is reset to idle
at the end of every branch. -/
def process_audio (stt : List Int → String) (cleanup_enabled : Bool)
    (llm : String → Option String) (frames : List (List Int)) : ProcessOut :=
  let audio := frames.flatten
  if audio.length > 0 then
    let text := py_strip (stt audio)
    if text = "" then
      { pnotes := [PNote.noSpeech], pastedText := none, historyAdded := none,
        finalTitle := .idle }
    else
      let out := if cleanup_enabled then cleanup_with_llm llm text else text
      { pnotes := [PNote.pasted], pastedText := some out,
        historyAdded := some out, finalTitle := .idle }
  else
    { pnotes := [PNote.noAudio], pastedText := none, historyAdded := none,
      finalTitle := .idle }

/-- Observable outcome of `_paste_text`: the clipboard contents after the
call returns, whether the 200ms restore thread was spawned, the snapshot it
would restore, and whether a "Paste Failed" notification fired. -/
structure PasteOut where
  clipboard : String
  restoreScheduled : Bool
  snapshot : String
  pasteFailedNote : Bool
deriving DecidableEq

/-- `DuaTalkApp._paste_text`.  `readClipboard` is the `pbpaste` result
(`none` = exception, treated as an empty snapshot); `pasteSimOk` is whether
simulating Cmd+V succeeds.  The new text is always written to the clipboard
first; on paste failure the function returns early: it notifies, schedules
no restore, and leaves the new text on the clipboard. -/
def paste_text (readClipboard : Option String) (pasteSimOk : Bool)
    (text : String) : PasteOut :=
  let original := match readClipboard with | some s => s | none => ""
  if pasteSimOk then
    { clipboard := text, restoreScheduled := true, snapshot := original,
      pasteFailedNote := false }
  else
    { clipboard := text, restoreScheduled := false, snapshot := original,
      pasteFailedNote := true }

/-- Clipboard contents once the restore window has elapsed: the snapshot if
a restore thread was scheduled, otherwise whatever `_paste_text` left. -/
def clipboard_after_restore (o : PasteOut) : String :=
  if o.restoreScheduled then o.snapshot else o.clipboard

/-- One history entry (`add_history_item`'s dict). -/
structure HistoryEntry where
  text : String
  timestamp : String
deriving DecidableEq

/-- `ConfigManager.HISTORY_LIMIT`. -/
def HISTORY_LIMIT : Nat := 5

/-- `ConfigManager.add_history_item`: insert at the front, then truncate to
the five most recent. -/
def add_history_item (history : List HistoryEntry) (item : HistoryEntry) :
    List HistoryEntry :=
  (item :: history).take HISTORY_LIMIT

/-- The full configuration record after loading (every field present). -/
structure Config where
  version : Nat
  toggle_hotkey : HotkeyConfig
  ptt_hotkey : HotkeyConfig
  active_mode : Mode
  history : List HistoryEntry
  cleanup_enabled : Bool
  whisper_model : String
  llm_model : String
deriving DecidableEq

/-- A well-formed on-disk configuration file: each top-level key present or
absent. -/
structure RawConfig where
  version : Option Nat
  toggle_hotkey : Option HotkeyConfig
  ptt_hotkey : Option HotkeyConfig
  active_mode : Option Mode
  history : Option (List HistoryEntry)
  cleanup_enabled : Option Bool
  whisper_model : Option String
  llm_model : Option String
deriving DecidableEq

/-- `ConfigManager.DEFAULT_CONFIG`. -/
def DEFAULT_CONFIG : Config :=
  { version := 1,
    toggle_hotkey := ⟨["shift", "ctrl"], none⟩,
    ptt_hotkey := ⟨["cmd", "shift"], none⟩,
    active_mode := .toggle,
    history := [],
    cleanup_enabled := false,
    whisper_model := "base.en",
    llm_model := "gemma3" }

/-- `ConfigManager._load`: a missing or unparseable file (`none`) falls back
to the defaults wholesale; a parsed file keeps every stored value and only
backfills missing top-level keys from the defaults. -/
def load_config (file : Option RawConfig) : Config :=
  match file with
  | none => DEFAULT_CONFIG
  | some raw =>
      { version := raw.version.getD DEFAULT_CONFIG.version,
        toggle_hotkey := raw.toggle_hotkey.getD DEFAULT_CONFIG.toggle_hotkey,
        ptt_hotkey := raw.ptt_hotkey.getD DEFAULT_CONFIG.ptt_hotkey,
        active_mode := raw.active_mode.getD DEFAULT_CONFIG.active_mode,
        history := raw.history.getD DEFAULT_CONFIG.history,
        cleanup_enabled := raw.cleanup_enabled.getD DEFAULT_CONFIG.cleanup_enabled,
        whisper_model := raw.whisper_model.getD DEFAULT_CONFIG.whisper_model,
        llm_model := raw.llm_model.getD DEFAULT_CONFIG.llm_model }

/-- `ConfigManager.get_history`. -/
def get_history (c : Config) : List HistoryEntry :=
  c.history

/-! ### Concrete scenario states -/

/-- The source's literal-key condition: `_is_hotkey_pressed` compares the
pressed set against the lower-cased configured literal
(`KeyCode.from_char(key.lower())`). -/
def literalLowerPressed (cfg : HotkeyConfig) (pressed : Finset PKey) : Prop :=
  match cfg.key with
  | none => True
  | some c => PKey.char c.toLower ∈ pressed

instance (cfg : HotkeyConfig) (p : Finset PKey) :
    Decidable (literalLowerPressed cfg p) := by
  unfold literalLowerPressed
  cases cfg.key <;> infer_instance

/-- Push-to-talk mode, Whisper model still loading, cmd already held. -/
def pttNotReadyState : AppState :=
  { initApp with active_mode := Mode.push_to_talk, stt_ready := false,
                 pressed := {PKey.cmd} }

/-- Toggle mode with a cmd+'d' binding and cmd already held. -/
def literalChordState : AppState :=
  { initApp with toggle_hotkey := ⟨["cmd"], some 'd'⟩,
                 pressed := {PKey.cmd} }

/-- Hotkey capture just entered for the toggle slot. -/
def captureToggleState : AppState :=
  start_hotkey_recording initApp Mode.toggle

/-- Hotkey capture just entered for the push-to-talk slot. -/
def capturePttState : AppState :=
  start_hotkey_recording initApp Mode.push_to_talk

/-- Capture trace states for the witness of the audio-capture claim:
two frames are produced, the second one after the stop flag is already set
(poll latency), then the producer exits and the join-protected read runs. -/
def recTrace1 : RecSys :=
  { prodAlive := true, pending := [8], queue := [7], stopFlag := false,
    cons := ConsPhase.running }

/-- Stop flag set while one frame is still pending. -/
def recTrace2 : RecSys :=
  { recTrace1 with stopFlag := true, cons := ConsPhase.stopping }

/-- The pending frame still gets delivered after the stop signal. -/
def recTrace3 : RecSys :=
  { recTrace2 with pending := [], queue := [7, 8] }

/-- The producer observes the flag and terminates. -/
def recTrace4 : RecSys :=
  { recTrace3 with prodAlive := false }

/-- The join returns and the queue snapshot is read. -/
def recTrace5 : RecSys :=
  { recTrace4 with cons := ConsPhase.joined [7, 8] }

/-- Six history entries, newest-to-be-inserted last. -/
def sixEntries : List HistoryEntry :=
  [⟨"a", "t1"⟩, ⟨"b", "t2"⟩, ⟨"c", "t3"⟩, ⟨"d", "t4"⟩, ⟨"e", "t5"⟩,
   ⟨"f", "t6"⟩]

/-- A well-formed config file whose stored history has six entries. -/
def rawWithSix : RawConfig :=
  { version := some 1, toggle_hotkey := none, ptt_hotkey := none,
    active_mode := none, history := some sixEntries,
    cleanup_enabled := some true, whisper_model := none, llm_model := none }

/-! ### Claim C1: hotkey matching -/

/-- Claim C1 holds after one correction: `matches` is true iff every
configured modifier has a pressed key of its canonical class and the
*lower-cased* configured literal key (not the literal exactly as
configured) is pressed; and the result is a function of the final pressed
set alone, independent of the press/release order that produced it. -/
theorem C1_matches_characterization :
    (∀ (cfg : HotkeyConfig) (p : Finset PKey),
        is_hotkey_pressed cfg p = true ↔
          specModifiersPressed cfg p ∧ literalLowerPressed cfg p) ∧
    (∀ (cfg : HotkeyConfig) (s0 : Finset PKey) (es es' : List KeyEvent),
        applyEvents s0 es = applyEvents s0 es' →
        is_hotkey_pressed cfg (applyEvents s0 es) =
          is_hotkey_pressed cfg (applyEvents s0 es')) := by
  constructor
  · intro cfg p
    obtain ⟨mods, key⟩ := cfg
    cases key <;>
      simp [is_hotkey_pressed, specModifiersPressed, literalLowerPressed,
        List.all_eq_true, List.any_eq_true]
  · intro cfg s0 es es' h
    rw [h]

/-- Witness for C1: the characterization at the default-style binding
shift+'d' with shift_l and 'd' pressed, and order-independence at two
orderings of pressing shift_l and ctrl_l. -/
theorem C1_matches_characterization_witness :
    (is_hotkey_pressed ⟨["shift"], some 'd'⟩
        ({PKey.shift_l, PKey.char 'd'} : Finset PKey) = true ↔
      specModifiersPressed ⟨["shift"], some 'd'⟩ {PKey.shift_l, PKey.char 'd'} ∧
        literalLowerPressed ⟨["shift"], some 'd'⟩ {PKey.shift_l, PKey.char 'd'}) ∧
    is_hotkey_pressed ⟨["shift", "ctrl"], none⟩
        (applyEvents ∅ [KeyEvent.press .shift_l, KeyEvent.press .ctrl_l]) =
      is_hotkey_pressed ⟨["shift", "ctrl"], none⟩
        (applyEvents ∅ [KeyEvent.press .ctrl_l, KeyEvent.press .shift_l]) :=
  ⟨C1_matches_characterization.1 _ _,
   C1_matches_characterization.2 _ _ _ _ (by decide)⟩

/-- Claim C1 as stated is false: with binding modifiers=["shift"],
key='D' and pressed set consisting of shift_l and the character key 'd',
the matcher returns true although the literal key 'D' itself is not in the
pressed set — the source lower-cases the configured literal before the
membership test. -/
theorem C1_counterexample :
    ¬ (is_hotkey_pressed ⟨["shift"], some 'D'⟩
          ({PKey.shift_l, PKey.char 'd'} : Finset PKey) = true ↔
        specModifiersPressed ⟨["shift"], some 'D'⟩
            {PKey.shift_l, PKey.char 'd'} ∧
          specLiteralPressed ⟨["shift"], some 'D'⟩
            {PKey.shift_l, PKey.char 'd'}) := by
  decide

/-! ### Claim C2: push-to-talk start vs. engine readiness -/

/-- Claim C2 exposes a code bug: in push-to-talk mode with the default
binding cmd+shift held and the speech-to-text model not yet loaded, the
press handler starts recording anyway (the readiness guard lives only on
the toggle path): the recording flag flips, `start_recording` runs once,
and no "not ready" notification is emitted, where the specification
requires rejection with a report and no state change. -/
theorem C2_ptt_starts_when_not_ready :
    pttNotReadyState.stt_ready = false ∧
    pttNotReadyState.recording = false ∧
    (on_press pttNotReadyState PKey.shift_l).recording = true ∧
    (on_press pttNotReadyState PKey.shift_l).hotkey_active = true ∧
    (on_press pttNotReadyState PKey.shift_l).starts = 1 ∧
    (on_press pttNotReadyState PKey.shift_l).notes = [] := by
  decide

/-! ### Claim C3: stop-join ordering of the audio capture -/

/-- Reachability invariant of the capture system: the queue plus the frames
not yet delivered is exactly the original frame stream (so the queue is an
order-preserving prefix of production), the consumer only waits in join
after setting the stop flag, and once the read has happened its result is
the queue and the producer is terminated. -/
theorem recReach_invariant {fs : List Nat} {s : RecSys}
    (h : RecReach (recInit fs) s) :
    s.queue ++ s.pending = fs ∧
    (s.cons = ConsPhase.stopping → s.stopFlag = true) ∧
    (∀ r, s.cons = ConsPhase.joined r → r = s.queue ∧ s.prodAlive = false) := by
  induction h with
  | refl => simp [recInit]
  | @step u t hreach hstep ih =>
      obtain ⟨ih1, ih2, ih3⟩ := ih
      cases hstep with
      | @put f rest hal hp =>
          refine ⟨?_, ?_, ?_⟩
          · simp only [List.append_assoc, List.singleton_append]
            rw [← hp]
            exact ih1
          · intro hc; exact ih2 hc
          · intro r hc
            exact absurd ((ih3 r hc).2) (by simp [hal])
      | @exitLoop hal hflag =>
          refine ⟨ih1, fun hc => ih2 hc, ?_⟩
          intro r hc
          exact ⟨(ih3 r hc).1, rfl⟩
      | @setStop hc =>
          refine ⟨ih1, fun _ => rfl, ?_⟩
          intro r hr
          exact ConsPhase.noConfusion hr
      | @joinRead hc hal =>
          refine ⟨ih1, ?_, ?_⟩
          · intro hr; exact ConsPhase.noConfusion hr
          · intro r hr
            refine ⟨?_, hal⟩
            cases hr
            rfl

/-- Claim C3: in every execution of the capture system, the buffer read
that follows the join returns exactly the frames produced, in FIFO order
(the queue extended by the undelivered frames is the original stream), and
from the post-read state no further step — in particular no enqueue — is
possible, because the read is enabled only after the producer has
terminated. -/
theorem C3_stop_join_read (fs : List Nat) (s : RecSys) (r : List Nat)
    (h : RecReach (recInit fs) s) (hj : s.cons = ConsPhase.joined r) :
    r = s.queue ∧ s.queue ++ s.pending = fs ∧ (∀ t, ¬ RecStep s t) := by
  obtain ⟨h1, _h2, h3⟩ := recReach_invariant h
  obtain ⟨hr, hal⟩ := h3 r hj
  refine ⟨hr, h1, ?_⟩
  intro t hstep
  cases hstep with
  | put ha _ => rw [hal] at ha; exact Bool.noConfusion ha
  | exitLoop ha _ => rw [hal] at ha; exact Bool.noConfusion ha
  | setStop hc => rw [hj] at hc; exact ConsPhase.noConfusion hc
  | joinRead hc _ => rw [hj] at hc; exact ConsPhase.noConfusion hc

/-- The concrete five-step execution behind the C3 witness. -/
theorem recTrace_reach : RecReach (recInit [7, 8]) recTrace5 := by
  have h0 : RecReach (recInit [7, 8]) (recInit [7, 8]) := RecReach.refl
  have h1 : RecReach (recInit [7, 8]) recTrace1 :=
    h0.step (RecStep.put rfl rfl)
  have h2 : RecReach (recInit [7, 8]) recTrace2 :=
    h1.step (RecStep.setStop rfl)
  have h3 : RecReach (recInit [7, 8]) recTrace3 :=
    h2.step (RecStep.put rfl rfl)
  have h4 : RecReach (recInit [7, 8]) recTrace4 :=
    h3.step (RecStep.exitLoop rfl rfl)
  exact h4.step (RecStep.joinRead rfl rfl)

/-- Witness for C3: the two-frame execution, where the second frame arrives
after the stop signal, still reads exactly both frames in order and admits
no further step. -/
theorem C3_stop_join_read_witness :
    ([7, 8] : List Nat) = recTrace5.queue ∧
    recTrace5.queue ++ recTrace5.pending = [7, 8] ∧
    (∀ t, ¬ RecStep recTrace5 t) :=
  C3_stop_join_read [7, 8] recTrace5 [7, 8] recTrace_reach rfl

/-! ### Claim C4: toggle trigger vs. key repeat -/

/-- If the configured literal key (lower-cased, as the source compares it)
is not pressed, the matcher refuses. -/
theorem matches_false_of_missing_literal (cfg : HotkeyConfig) (p : Finset PKey)
    (c : Char) (hc : cfg.key = some c)
    (hp : PKey.char c.toLower ∉ p) :
    is_hotkey_pressed cfg p = false := by
  simp [is_hotkey_pressed, hc, hp]

/-- If some configured modifier has no pressed variant, the matcher
refuses. -/
theorem matches_false_of_missing (cfg : HotkeyConfig) (p : Finset PKey)
    (m : String) (hm : m ∈ cfg.modifiers)
    (hp : ∀ k ∈ KEY_MAPPING m, k ∉ p) :
    is_hotkey_pressed cfg p = false := by
  cases hall : (cfg.modifiers.all
      fun m' => (KEY_MAPPING m').any fun k => decide (k ∈ p)) with
  | false => simp [is_hotkey_pressed, hall]
  | true =>
      exfalso
      rw [List.all_eq_true] at hall
      have hany := hall m hm
      rw [List.any_eq_true] at hany
      obtain ⟨k, hk, hkp⟩ := hany
      exact hp k hk (by simpa using hkp)

/-- `toggle_recording` never touches the pressed set, the trigger counter,
the capture state, the mode, or the bindings. -/
theorem toggle_recording_preserves (s : AppState) :
    (toggle_recording s).pressed = s.pressed ∧
    (toggle_recording s).toggle_invocations = s.toggle_invocations ∧
    (toggle_recording s).recording_hotkey_for = s.recording_hotkey_for ∧
    (toggle_recording s).active_mode = s.active_mode ∧
    (toggle_recording s).toggle_hotkey = s.toggle_hotkey := by
  unfold toggle_recording start_recording stop_recording
  split_ifs <;> simp

/-- Shape of `on_press` outside capture mode, in toggle mode, when the
binding does not match after tracking the key: only the pressed set
changes. -/
theorem on_press_toggle_nofire (s : AppState) (k : PKey)
    (hcap : s.recording_hotkey_for = none)
    (hmode : s.active_mode = Mode.toggle)
    (hfalse : is_hotkey_pressed s.toggle_hotkey (insert k s.pressed) = false) :
    on_press s k = { s with pressed := insert k s.pressed } := by
  simp [on_press, hcap, hmode, get_hotkey, hfalse]

/-- Shape of `on_press` outside capture mode, in toggle mode, when the
binding matches after tracking the key: the pressed set is cleared, the
trigger counter advances, and `toggle_recording` runs on that state. -/
theorem on_press_toggle_fire (s : AppState) (k : PKey)
    (hcap : s.recording_hotkey_for = none)
    (hmode : s.active_mode = Mode.toggle)
    (hfire : is_hotkey_pressed s.toggle_hotkey (insert k s.pressed) = true) :
    on_press s k =
      toggle_recording
        { s with pressed := ∅,
                 toggle_invocations := s.toggle_invocations + 1 } := by
  simp [on_press, hcap, hmode, get_hotkey, hfire]

/-- As long as every key of some required modifier class stays out of the
pressed set and none of the incoming press events supplies one, the toggle
trigger cannot fire. -/
theorem toggle_no_retrigger (m : String) (es : List PKey) (s : AppState)
    (hcap : s.recording_hotkey_for = none)
    (hmode : s.active_mode = Mode.toggle)
    (hm : m ∈ s.toggle_hotkey.modifiers)
    (hp : ∀ k ∈ KEY_MAPPING m, k ∉ s.pressed)
    (hes : ∀ k ∈ es, k ∉ KEY_MAPPING m) :
    (app_run s (es.map AppEvent.press)).toggle_invocations =
      s.toggle_invocations := by
  induction es generalizing s with
  | nil => rfl
  | cons k rest ih =>
      have hk : k ∉ KEY_MAPPING m := hes k (by simp)
      have hfalse : is_hotkey_pressed s.toggle_hotkey (insert k s.pressed)
          = false := by
        refine matches_false_of_missing _ _ m hm ?_
        intro k' hk' hmem
        rcases Finset.mem_insert.mp hmem with h | h
        · exact hk (h ▸ hk')
        · exact hp k' hk' h
      have hstep : app_run s ((k :: rest).map AppEvent.press) =
          app_run { s with pressed := insert k s.pressed }
            (rest.map AppEvent.press) := by
        simp only [List.map_cons, app_run, List.foldl_cons]
        rw [show app_step s (AppEvent.press k) = on_press s k from rfl,
          on_press_toggle_nofire s k hcap hmode hfalse]
      rw [hstep]
      exact ih { s with pressed := insert k s.pressed } hcap hmode hm
        (by
          intro k' hk' hmem
          rcases Finset.mem_insert.mp hmem with h | h
          · exact hk (h ▸ hk')
          · exact hp k' hk' h)
        (fun k' hk' => hes k' (by simp [hk']))

/-- As long as the binding's literal key (lower-cased, as the source
compares it) stays out of the pressed set and none of the incoming press
events supplies it, the toggle trigger cannot fire. -/
theorem toggle_no_retrigger_literal (c : Char) (es : List PKey) (s : AppState)
    (hcap : s.recording_hotkey_for = none)
    (hmode : s.active_mode = Mode.toggle)
    (hc : s.toggle_hotkey.key = some c)
    (hp : PKey.char c.toLower ∉ s.pressed)
    (hes : ∀ k ∈ es, k ≠ PKey.char c.toLower) :
    (app_run s (es.map AppEvent.press)).toggle_invocations =
      s.toggle_invocations := by
  induction es generalizing s with
  | nil => rfl
  | cons k rest ih =>
      have hk : k ≠ PKey.char c.toLower := hes k (by simp)
      have hfalse : is_hotkey_pressed s.toggle_hotkey (insert k s.pressed)
          = false := by
        refine matches_false_of_missing_literal _ _ c hc ?_
        intro hmem
        rcases Finset.mem_insert.mp hmem with h | h
        · exact hk h.symm
        · exact hp h
      have hstep : app_run s ((k :: rest).map AppEvent.press) =
          app_run { s with pressed := insert k s.pressed }
            (rest.map AppEvent.press) := by
        simp only [List.map_cons, app_run, List.foldl_cons]
        rw [show app_step s (AppEvent.press k) = on_press s k from rfl,
          on_press_toggle_nofire s k hcap hmode hfalse]
      rw [hstep]
      exact ih { s with pressed := insert k s.pressed } hcap hmode hc
        (by
          intro hmem
          rcases Finset.mem_insert.mp hmem with h | h
          · exact hk h.symm
          · exact hp h)
        (fun k' hk' => hes k' (by simp [hk']))

/-- Claim C4 holds after one correction: a matching press in toggle mode
clears the entire pressed set before invoking the toggle and counts one
trigger, and afterwards repeat press events cannot fire the trigger again
*as long as at least one key required by the binding — every variant of
some required modifier class, or the literal key — is not re-supplied by
them*; repeat press events that re-supply every required key do fire again
(see the counterexample). -/
theorem C4_toggle_clear_suppresses_subchord_repeats (s : AppState) (k : PKey)
    (es : List PKey)
    (hcap : s.recording_hotkey_for = none)
    (hmode : s.active_mode = Mode.toggle)
    (hfire : is_hotkey_pressed s.toggle_hotkey (insert k s.pressed) = true)
    (hwithheld :
      (∃ m ∈ s.toggle_hotkey.modifiers, ∀ k' ∈ es, k' ∉ KEY_MAPPING m) ∨
      (∃ c, s.toggle_hotkey.key = some c ∧
        ∀ k' ∈ es, k' ≠ PKey.char c.toLower)) :
    (on_press s k).pressed = ∅ ∧
    (on_press s k).toggle_invocations = s.toggle_invocations + 1 ∧
    (app_run (on_press s k) (es.map AppEvent.press)).toggle_invocations =
      s.toggle_invocations + 1 := by
  have hshape := on_press_toggle_fire s k hcap hmode hfire
  set s1 : AppState :=
    { s with pressed := ∅, toggle_invocations := s.toggle_invocations + 1 }
    with hs1
  obtain ⟨hpres, hinv, hcap', hmode', hbind⟩ := toggle_recording_preserves s1
  have h1 : (on_press s k).pressed = ∅ := by rw [hshape, hpres]
  have h2 : (on_press s k).toggle_invocations = s.toggle_invocations + 1 := by
    rw [hshape, hinv]
  refine ⟨h1, h2, ?_⟩
  rw [hshape]
  rcases hwithheld with ⟨m, hm, hes⟩ | ⟨c, hc, hes⟩
  · rw [toggle_no_retrigger m es (toggle_recording s1)
      (by rw [hcap']; exact hcap) (by rw [hmode']; exact hmode)
      (by rw [hbind]; exact hm)
      (by rw [hpres]; intro k' _ hmem
          exact absurd hmem (Finset.not_mem_empty k'))
      hes]
    rw [hinv]
  · rw [toggle_no_retrigger_literal c es (toggle_recording s1)
      (by rw [hcap']; exact hcap) (by rw [hmode']; exact hmode)
      (by rw [hbind]; exact hc)
      (by rw [hpres]; exact Finset.not_mem_empty _)
      hes]
    rw [hinv]

/-- Claim C4 as stated is false: from the idle default state (toggle
binding shift+ctrl), pressing shift_l then ctrl_l fires the trigger once
(recording starts, pressed set cleared); two further press events of the
same still-held chord keys — with no intervening release — fire the
trigger a second time and stop the recording. -/
theorem C4_counterexample :
    (app_run initApp
        [AppEvent.press .shift_l, AppEvent.press .ctrl_l]).toggle_invocations
        = 1 ∧
    (app_run initApp
        [AppEvent.press .shift_l, AppEvent.press .ctrl_l]).recording = true ∧
    (app_run initApp
        [AppEvent.press .shift_l, AppEvent.press .ctrl_l]).pressed = ∅ ∧
    (app_run initApp
        [AppEvent.press .shift_l, AppEvent.press .ctrl_l,
         AppEvent.press .shift_l, AppEvent.press .ctrl_l]).toggle_invocations
        = 2 ∧
    (app_run initApp
        [AppEvent.press .shift_l, AppEvent.press .ctrl_l,
         AppEvent.press .shift_l, AppEvent.press .ctrl_l]).recording
        = false := by
  decide

/-- Witness for the amended C4, covering both withheld-requirement cases:
from the default state with ctrl_l already held, pressing shift_l fires the
trigger, and two repeat presses of shift_l alone (the ctrl class never
re-supplied) leave the trigger count at one; and with a cmd+'d' binding and
cmd already held, pressing 'd' fires the trigger, and two repeat presses of
cmd alone (the literal 'd' never re-supplied) leave the trigger count at
one. -/
theorem C4_toggle_clear_suppresses_subchord_repeats_witness :
    ((on_press { initApp with pressed := {PKey.ctrl_l} } PKey.shift_l).pressed
        = ∅ ∧
      (on_press { initApp with pressed := {PKey.ctrl_l} }
          PKey.shift_l).toggle_invocations = 1 ∧
      (app_run (on_press { initApp with pressed := {PKey.ctrl_l} }
            PKey.shift_l)
          ([PKey.shift_l, PKey.shift_l].map AppEvent.press)).toggle_invocations
        = 1) ∧
    ((on_press literalChordState (PKey.char 'd')).pressed = ∅ ∧
      (on_press literalChordState (PKey.char 'd')).toggle_invocations = 1 ∧
      (app_run (on_press literalChordState (PKey.char 'd'))
          ([PKey.cmd, PKey.cmd].map AppEvent.press)).toggle_invocations
        = 1) :=
  ⟨C4_toggle_clear_suppresses_subchord_repeats
      { initApp with pressed := {PKey.ctrl_l} } PKey.shift_l
      [PKey.shift_l, PKey.shift_l] rfl rfl (by decide) (Or.inl (by decide)),
   C4_toggle_clear_suppresses_subchord_repeats
      literalChordState (PKey.char 'd')
      [PKey.cmd, PKey.cmd] rfl rfl (by decide)
      (Or.inr ⟨'d', by decide, by decide⟩)⟩

/-! ### Claim C5: hotkey capture scenarios -/

/-- Claim C5: capturing shift and ctrl and releasing both with no literal
key before the grace timer fires commits the modifiers-only binding for the
captured slot and exits capture; capturing cmd then pressing 'd'
immediately commits cmd+'d' and exits capture; and any finalization with an
empty accumulated modifier set commits nothing, reports an invalid hotkey,
and exits capture. -/
theorem C5_capture_scenarios :
    ((app_run captureToggleState
        [AppEvent.press .shift_l, AppEvent.press .ctrl_l,
         AppEvent.release .shift_l, AppEvent.release .ctrl_l,
         AppEvent.grace]).committed
        = [(Mode.toggle, ({"shift", "ctrl"} : Finset String),
            (none : Option Char))] ∧
      (app_run captureToggleState
        [AppEvent.press .shift_l, AppEvent.press .ctrl_l,
         AppEvent.release .shift_l, AppEvent.release .ctrl_l,
         AppEvent.grace]).recording_hotkey_for = none) ∧
    ((app_run capturePttState
        [AppEvent.press .cmd, AppEvent.press (.char 'd')]).committed
        = [(Mode.push_to_talk, ({"cmd"} : Finset String), some 'd')] ∧
      (app_run capturePttState
        [AppEvent.press .cmd, AppEvent.press (.char 'd')]).recording_hotkey_for
        = none) ∧
    (∀ s : AppState, s.recorded_modifiers = ∅ →
        (finish_hotkey_recording s).committed = s.committed ∧
        (finish_hotkey_recording s).notes = s.notes ++ [Note.invalidHotkey] ∧
        (finish_hotkey_recording s).recording_hotkey_for = none) := by
  refine ⟨by decide, by decide, ?_⟩
  intro s h
  simp [finish_hotkey_recording, h]

/-- Witness for C5: the rejection branch instantiated at the
freshly-entered capture state (empty accumulated modifier set). -/
theorem C5_capture_scenarios_witness :
    (finish_hotkey_recording captureToggleState).committed
        = captureToggleState.committed ∧
    (finish_hotkey_recording captureToggleState).notes
        = captureToggleState.notes ++ [Note.invalidHotkey] ∧
    (finish_hotkey_recording captureToggleState).recording_hotkey_for
        = none :=
  C5_capture_scenarios.2.2 captureToggleState (by decide)

/-! ### Claim C6: cleanup fallback -/

/-- Claim C6: whenever the LLM cleanup call fails (the oracle returns
`none`, standing for any raised exception), `cleanup_with_llm` returns the
transcript unchanged; consequently, with an always-failing cleanup service
and cleanup enabled, the processed output text is exactly the stripped
transcript for any non-empty transcript. -/
theorem C6_cleanup_falls_back :
    (∀ (llm : String → Option String) (text : String),
        llm (cleanup_prompt text) = none →
        cleanup_with_llm llm text = text) ∧
    (∀ (stt : List Int → String) (frames : List (List Int)),
        frames.flatten ≠ [] →
        py_strip (stt frames.flatten) ≠ "" →
        (process_audio stt true (fun _ => none) frames).pastedText =
          some (py_strip (stt frames.flatten))) := by
  constructor
  · intro llm text h
    simp [cleanup_with_llm, h]
  · intro stt frames hne htext
    have hlen : 0 < frames.flatten.length := List.length_pos.mpr hne
    simp only [process_audio]
    rw [if_pos hlen, if_neg htext]
    simp [cleanup_with_llm]

/-- Witness for C6: a failing cleanup oracle leaves "hello there" intact,
both through `cleanup_with_llm` directly and through the full processing
pipeline. -/
theorem C6_cleanup_falls_back_witness :
    cleanup_with_llm (fun _ => none) "hello there" = "hello there" ∧
    (process_audio (fun _ => "hello there") true (fun _ => none)
        [[1, 2]]).pastedText = some (py_strip "hello there") :=
  ⟨C6_cleanup_falls_back.1 (fun _ => none) "hello there" rfl,
   C6_cleanup_falls_back.2 (fun _ => "hello there") [[1, 2]]
     (by decide) (by decide)⟩

/-! ### Claim C7: history insertion invariant -/

/-- Claim C7: an insertion always leaves at most five entries, with the
just-inserted entry in front and the previous entries following in their
old order (the result is a prefix of the new entry consed on the old
list); and six successive insertions from any starting history leave
exactly the five most recent, newest first. -/
theorem C7_history_bounded_newest_first :
    (∀ (h : List HistoryEntry) (e : HistoryEntry), h.length ≤ 5 →
        (add_history_item h e).length ≤ 5 ∧
        (add_history_item h e).head? = some e ∧
        add_history_item h e <+: e :: h) ∧
    (∀ (h : List HistoryEntry) (e1 e2 e3 e4 e5 e6 : HistoryEntry),
        List.foldl add_history_item h [e1, e2, e3, e4, e5, e6] =
          [e6, e5, e4, e3, e2]) := by
  constructor
  · intro h e _
    refine ⟨List.length_take_le _ _, ?_, ?_⟩
    · simp [add_history_item, HISTORY_LIMIT]
    · exact ⟨(e :: h).drop HISTORY_LIMIT, List.take_append_drop _ _⟩
  · intro h e1 e2 e3 e4 e5 e6
    simp [add_history_item, HISTORY_LIMIT, List.take_take, List.take_succ_cons]

/-- Witness for C7: both parts at a concrete five-entry history. -/
theorem C7_history_bounded_newest_first_witness :
    ((add_history_item (sixEntries.take 5) ⟨"g", "t7"⟩).length ≤ 5 ∧
      (add_history_item (sixEntries.take 5) ⟨"g", "t7"⟩).head?
        = some ⟨"g", "t7"⟩ ∧
      add_history_item (sixEntries.take 5) ⟨"g", "t7"⟩
        <+: (⟨"g", "t7"⟩ : HistoryEntry) :: sixEntries.take 5) ∧
    List.foldl add_history_item [] [(⟨"a", "t1"⟩ : HistoryEntry), ⟨"b", "t2"⟩,
        ⟨"c", "t3"⟩, ⟨"d", "t4"⟩, ⟨"e", "t5"⟩, ⟨"f", "t6"⟩]
      = [⟨"f", "t6"⟩, ⟨"e", "t5"⟩, ⟨"d", "t4"⟩, ⟨"c", "t3"⟩, ⟨"b", "t2"⟩] :=
  ⟨C7_history_bounded_newest_first.1 (sixEntries.take 5) ⟨"g", "t7"⟩
      (by decide),
   C7_history_bounded_newest_first.2 [] ⟨"a", "t1"⟩ ⟨"b", "t2"⟩ ⟨"c", "t3"⟩
      ⟨"d", "t4"⟩ ⟨"e", "t5"⟩ ⟨"f", "t6"⟩⟩

/-! ### Claim C8: processing failure reporting -/

/-- Claim C8: draining zero audio samples reports "no audio recorded" and
pastes nothing; a transcript that strips to empty reports "no speech
detected" and pastes nothing; and in every case — success or failure — the
icon returns to idle at the end of processing. -/
theorem C8_processing_failures (stt : List Int → String) (ce : Bool)
    (llm : String → Option String) (frames : List (List Int)) :
    (frames.flatten = [] →
        process_audio stt ce llm frames =
          { pnotes := [PNote.noAudio], pastedText := none,
            historyAdded := none, finalTitle := .idle }) ∧
    (frames.flatten ≠ [] → py_strip (stt frames.flatten) = "" →
        process_audio stt ce llm frames =
          { pnotes := [PNote.noSpeech], pastedText := none,
            historyAdded := none, finalTitle := .idle }) ∧
    (process_audio stt ce llm frames).finalTitle = .idle := by
  refine ⟨?_, ?_, ?_⟩
  · intro h
    simp only [process_audio, h]
    rfl
  · intro hne htext
    have hlen : 0 < frames.flatten.length := List.length_pos.mpr hne
    simp only [process_audio]
    rw [if_pos hlen, if_pos htext]
  · simp only [process_audio]
    split_ifs <;> rfl

/-- Witness for C8: the empty capture and the whitespace-only transcript at
concrete inputs. -/
theorem C8_processing_failures_witness :
    (process_audio (fun _ => "hi") false (fun _ => none) [] =
        { pnotes := [PNote.noAudio], pastedText := none,
          historyAdded := none, finalTitle := .idle }) ∧
    (process_audio (fun _ => "  ") false (fun _ => none) [[3]] =
        { pnotes := [PNote.noSpeech], pastedText := none,
          historyAdded := none, finalTitle := .idle }) :=
  ⟨(C8_processing_failures (fun _ => "hi") false (fun _ => none) []).1 rfl,
   (C8_processing_failures (fun _ => "  ") false (fun _ => none) [[3]]).2.1
     (by decide) (by rfl)⟩

/-! ### Claim C9: paste failure leaves the new text -/

/-- Claim C9: when simulating the paste keystroke fails, `_paste_text`
reports "paste failed", schedules no clipboard restoration, and leaves the
newly written text on the clipboard — also after the restore window, since
no restore was scheduled. -/
theorem C9_paste_failure (readClipboard : Option String) (text : String) :
    (paste_text readClipboard false text).pasteFailedNote = true ∧
    (paste_text readClipboard false text).restoreScheduled = false ∧
    (paste_text readClipboard false text).clipboard = text ∧
    clipboard_after_restore (paste_text readClipboard false text) = text := by
  simp [paste_text, clipboard_after_restore]

/-! ### Claim C10: loading never truncates history -/

/-- Claim C10: loading a well-formed config file returns the stored history
list unchanged — whatever its length — and the five-entry cap is applied
only when a new entry is inserted. -/
theorem C10_load_keeps_history (raw : RawConfig) (l : List HistoryEntry)
    (hl : raw.history = some l) :
    get_history (load_config (some raw)) = l ∧
    (∀ e, add_history_item (get_history (load_config (some raw))) e =
        (e :: l).take HISTORY_LIMIT) := by
  constructor
  · simp [get_history, load_config, hl]
  · intro e
    simp [get_history, load_config, hl, add_history_item]

/-- Witness for C10: a stored history of six entries survives loading with
all six entries in order, and the next insertion caps it at five. -/
theorem C10_load_keeps_history_witness :
    get_history (load_config (some rawWithSix)) = sixEntries ∧
    (∀ e, add_history_item (get_history (load_config (some rawWithSix))) e =
        (e :: sixEntries).take HISTORY_LIMIT) :=
  C10_load_keeps_history rawWithSix sixEntries rfl

end DuaTalk
